import Mathlib

/-!
Shallow embedding of `go-proto-reflect-validators` (`valid.go`,
`validator.pb.go`).  The validator walks a reflectively described protobuf
message, fetches the optional `FieldValidator` rule attached to each field
descriptor, and checks the field value against it, recursing into nested
messages.  Go `interface{}` values are modelled by the `GoValue` inductive;
a failed Go type assertion (`value.(int32)` and friends) is modelled by the
`VResult.panicked` outcome, which propagates exactly as a Go panic does until
the innermost enclosing `ValidMsg`, whose `recover` turns it into a nil
error.  Machine integers are `Int`/`Nat` with the reinterpretation casts of
`validField` made explicit; Go `float64` is modelled by exact rationals
(IEEE rounding and NaN are outside the model); the external `regexp`
collaborator is a parameter `re : RegexEngine`, where `re pat = none` models
a pattern that fails to compile and `re pat = some m` a compiled matcher.
Recursion into nested messages is indexed by a fuel bound on nesting depth;
any fuel larger than the message's nesting depth gives the Go behaviour.
-/

namespace GoProtoValidators

/-- The protobuf wire types (`descriptorpb.FieldDescriptorProto_TYPE_*`)
that `validField` dispatches on. -/
inductive FieldType where
  | double
  | float
  | int64
  | uint64
  | int32
  | fixed64
  | fixed32
  | bool
  | string
  | group
  | message
  | bytes
  | uint32
  | enum
  | sfixed32
  | sfixed64
  | sint32
  | sint64
deriving DecidableEq

/-- The rule extension `FieldValidator` of `validator.pb.go`: a bundle of
independently optional constraints attached to a field descriptor. -/
structure FieldValidator where
  regex : Option String := none
  intGt : Option Int := none
  intLt : Option Int := none
  floatGt : Option Rat := none
  floatLt : Option Rat := none
  floatEpsilon : Option Rat := none
  floatGte : Option Rat := none
  floatLte : Option Rat := none
  stringNotEmpty : Option Bool := none
  repeatedCountMin : Option Int := none
  repeatedCountMax : Option Int := none
  lengthGt : Option Int := none
  lengthLt : Option Int := none
  lengthEq : Option Int := none
  isInEnum : Option Bool := none
deriving DecidableEq

/-- The part of a protoreflect `desc.FieldDescriptor` the checkers read:
the field name, its declared wire type, and (for enum fields) the declared
enum numbers of `field.GetEnumType().GetValues()`. -/
structure FieldDescriptor where
  name : String
  typ : FieldType
  enumValues : List Int := []
deriving DecidableEq

/-- A Go `interface{}` payload as it appears inside a `ValidError`
(threshold and observed values). -/
inductive EVal where
  | int (i : Int)
  | rat (q : Rat)
  | str (s : String)
  | bool (b : Bool)
deriving DecidableEq

/-- The structured validation error `ValidError`: offending field (name and
declared type), violated constraint name, configured threshold, and the
value passed as the observed value. -/
structure ValidError where
  fieldName : String
  fieldType : FieldType
  validKey : String
  validValue : EVal
  fieldValue : EVal
deriving DecidableEq

/-- Outcome of a validation step: nil error, a returned `ValidError`, or a
propagating Go panic (from a failed type assertion). -/
inductive VResult where
  | ok
  | fail (e : ValidError)
  | panicked
deriving DecidableEq

/-- `ValidFail` of `valid.go`: builds the structured error from the field
descriptor, the constraint name, the threshold and the observed value. -/
def ValidFail (field : FieldDescriptor) (validKey : String) (validValue fieldValue : EVal) :
    ValidError :=
  ⟨field.name, field.typ, validKey, validValue, fieldValue⟩

/-- One `if rule.X != nil && !(pass) { return ValidFail(...) }` step of a
checker: when the optional constraint is set and its predicate fails, the
violation is returned; otherwise the rest of the checker runs. -/
def checkOpt {α : Type} (con : Option α) (pass : α → Bool) (err : α → ValidError)
    (next : VResult) : VResult :=
  match con with
  | none => next
  | some a => if pass a then next else .fail (err a)

/-- `checkInt` of `valid.go`: strict `IntGt` then strict `IntLt` on the
64-bit signed comparison value. -/
def checkInt (field : FieldDescriptor) (value : Int) (rule : Option FieldValidator) :
    VResult :=
  match rule with
  | none => .ok
  | some rule =>
    checkOpt rule.intGt (fun gt => decide (value > gt))
      (fun gt => ValidFail field "IntGt" (.int gt) (.int value))
      (checkOpt rule.intLt (fun lt => decide (value < lt))
        (fun lt => ValidFail field "IntLt" (.int lt) (.int value))
        .ok)

/-- `checkFloat` of `valid.go`: widens the value by `FloatEpsilon` (when
set) into `valueMax`/`valueMin`, then applies `FloatGt`, `FloatLt`,
`FloatGte`, `FloatLte` in that order. -/
def checkFloat (field : FieldDescriptor) (value : Rat) (rule : Option FieldValidator) :
    VResult :=
  match rule with
  | none => .ok
  | some rule =>
    let eps : Rat := match rule.floatEpsilon with | none => 0 | some e => e
    let valueMax : Rat := value + eps
    let valueMin : Rat := value - eps
    checkOpt rule.floatGt (fun gt => decide (valueMax > gt))
      (fun gt => ValidFail field "FloatGt" (.rat gt) (.rat value))
      (checkOpt rule.floatLt (fun lt => decide (valueMin < lt))
        (fun lt => ValidFail field "FloatLt" (.rat lt) (.rat value))
        (checkOpt rule.floatGte (fun gte => decide (valueMax ≥ gte))
          (fun gte => ValidFail field "FloatGte" (.rat gte) (.rat value))
          (checkOpt rule.floatLte (fun lte => decide (valueMin ≤ lte))
            (fun lte => ValidFail field "FloatLte" (.rat lte) (.rat value))
            .ok)))

/-- The external `regexp` collaborator: compiling a pattern either fails
(`none`, modelling `regexp.Compile` returning an error) or yields a matcher.
The process-wide `regCache` memoizes compilation by the exact pattern
string; since compilation of a fixed pattern is deterministic, the cache is
observationally the compile function itself and is modelled away. -/
abbrev RegexEngine := String → Option (String → Bool)

/-- `checkString` of `valid.go`: `StringNotEmpty`, then `LengthGt`,
`LengthLt`, `LengthEq` on the byte length, then the `Regex` constraint; a
pattern that fails to compile is logged and skipped. -/
def checkString (re : RegexEngine) (field : FieldDescriptor) (value : String)
    (rule : Option FieldValidator) : VResult :=
  match rule with
  | none => .ok
  | some rule =>
    if rule.stringNotEmpty.getD false && value == "" then
      .fail (ValidFail field "StringNotEmpty" (.bool true) (.str value))
    else
      let len : Int := (value.utf8ByteSize : Int)
      checkOpt rule.lengthGt (fun gt => decide (len > gt))
        (fun gt => ValidFail field "LengthGt" (.int gt) (.int len))
        (checkOpt rule.lengthLt (fun lt => decide (len < lt))
          (fun lt => ValidFail field "LengthLt" (.int lt) (.int len))
          (checkOpt rule.lengthEq (fun n => decide (len = n))
            (fun n => ValidFail field "LengthEq" (.int n) (.int len))
            (match rule.regex with
             | none => .ok
             | some pat =>
               match re pat with
               | none => .ok
               | some matcher =>
                 if matcher value then .ok
                 else .fail (ValidFail field "Regex" (.str pat) (.str value)))))

/-- `checkBytes` of `valid.go`: `LengthGt`, `LengthLt`, `LengthEq` on the
byte length only. -/
def checkBytes (field : FieldDescriptor) (value : List Nat)
    (rule : Option FieldValidator) : VResult :=
  match rule with
  | none => .ok
  | some rule =>
    let len : Int := (value.length : Int)
    checkOpt rule.lengthGt (fun gt => decide (len > gt))
      (fun gt => ValidFail field "LengthGt" (.int gt) (.int len))
      (checkOpt rule.lengthLt (fun lt => decide (len < lt))
        (fun lt => ValidFail field "LengthLt" (.int lt) (.int len))
        (checkOpt rule.lengthEq (fun n => decide (len = n))
          (fun n => ValidFail field "LengthEq" (.int n) (.int len))
          .ok))

/-- `checkEnum` of `valid.go`: only when `IsInEnum` is set and true, the
value must equal one of the declared enum numbers; on failure the error is
built with the literal `false` as the observed value. -/
def checkEnum (field : FieldDescriptor) (value : Int) (rule : Option FieldValidator) :
    VResult :=
  match rule with
  | none => .ok
  | some rule =>
    match rule.isInEnum with
    | none => .ok
    | some inEnum =>
      if !inEnum then .ok
      else if field.enumValues.contains value then .ok
      else .fail (ValidFail field "IsInEnum" (.bool inEnum) (.bool false))

/-- The per-field data `Valid` obtains from a `dynamic.Message` through the
protoreflect collaborator: the descriptor, the cardinality flags
(`IsExtension`, `IsMap`, `IsRepeated`), the map key/value descriptors, the
decoded rule extension (the result of `getRule`, `none` when the extension
is absent or malformed), and the `TryGetField` outcome (`none` = read
error, `some none` = nil value, `some (some v)` = value `v`). -/
structure MsgFieldP (α : Type) where
  fdesc : FieldDescriptor
  isExtension : Bool := false
  isMap : Bool := false
  isRepeated : Bool := false
  mapKeyDesc : FieldDescriptor := ⟨"", .int32, []⟩
  mapValueDesc : FieldDescriptor := ⟨"", .int32, []⟩
  rule : Option FieldValidator := none
  value : Option (Option α) := some none

/-- Go runtime values as handed back by the `dynamic` collaborator: the
constructors mirror the Go dynamic types that `validField` type-asserts on
(enum field values arrive as `int32`, hence through `vInt32`).  `vMap`
carries the map entries in the presentation order chosen by the Go runtime
for one iteration; the same Go map may present any permutation of its
entries. -/
inductive GoValue where
  | vInt32 (v : Int)
  | vInt64 (v : Int)
  | vUInt32 (v : Nat)
  | vUInt64 (v : Nat)
  | vFloat32 (v : Rat)
  | vFloat64 (v : Rat)
  | vString (s : String)
  | vBytes (b : List Nat)
  | vBool (b : Bool)
  | vMsg (fields : List (MsgFieldP GoValue))
  | vList (xs : List GoValue)
  | vMap (entries : List (GoValue × GoValue))

/-- A known field of a dynamic message. -/
abbrev MsgField := MsgFieldP GoValue

/-- A `dynamic.Message`: its known fields in schema declaration order. -/
abbrev DynMessage := List MsgField

/-- `checkRepeated` of `valid.go`: the aggregate element count against
`RepeatedCountMin` (inclusive) then `RepeatedCountMax` (inclusive). -/
def checkRepeated (field : FieldDescriptor) (values : List GoValue)
    (rule : Option FieldValidator) : VResult :=
  match rule with
  | none => .ok
  | some rule =>
    let len : Int := (values.length : Int)
    checkOpt rule.repeatedCountMin (fun mn => decide (len ≥ mn))
      (fun mn => ValidFail field "RepeatedCountMin" (.int mn) (.int len))
      (checkOpt rule.repeatedCountMax (fun mx => decide (len ≤ mx))
        (fun mx => ValidFail field "RepeatedCountMax" (.int mx) (.int len))
        .ok)

/-- A `for` loop that returns the first non-nil result (error or panic)
and `.ok` when every iteration passes. -/
def firstNonOk {α : Type} (check : α → VResult) : List α → VResult
  | [] => .ok
  | x :: rest =>
    match check x with
    | .ok => firstNonOk check rest
    | r => r

/-- The `recover` in `ValidMsg`: a panic is logged and becomes a nil
error; returned errors pass through. -/
def absorbPanic : VResult → VResult
  | .panicked => .ok
  | r => r

/-- The Go conversion `int64(value.(uint32))`: a 32-bit unsigned value is
widened unchanged. -/
def int64OfUInt32 (u : Nat) : Int :=
  ((u % 2 ^ 32 : Nat) : Int)

/-- The Go conversion `int64(value.(uint64))`: the 64-bit unsigned value is
reinterpreted as a signed 64-bit value, so values at or above `2 ^ 63` wrap
to negative numbers. -/
def int64OfUInt64 (u : Nat) : Int :=
  if u % 2 ^ 64 < 2 ^ 63 then ((u % 2 ^ 64 : Nat) : Int)
  else ((u % 2 ^ 64 : Nat) : Int) - 2 ^ 64

/-- `checkMessage` of `valid.go` with the recursive `ValidMsg` call
abstracted as `rec`: a value that is not a dynamic message is logged and
treated as valid; the field descriptor and the rule are received but never
used. -/
def checkMessageGo (rec : DynMessage → VResult) (field : FieldDescriptor)
    (value : GoValue) (rule : Option FieldValidator) : VResult :=
  match value with
  | .vMsg m => rec m
  | _ => .ok

/-- `validField` of `valid.go` with the recursive `ValidMsg` call abstracted
as `rec`: nil values are valid; otherwise dispatch on the declared type,
type-asserting the runtime value (a mismatch panics); wire types with no
switch case fall through to nil. -/
def validFieldGo (re : RegexEngine) (rec : DynMessage → VResult)
    (field : FieldDescriptor) (value : Option GoValue)
    (rule : Option FieldValidator) : VResult :=
  match value with
  | none => .ok
  | some value =>
    match field.typ with
    | .message => checkMessageGo rec field value rule
    | .int32 | .sint32 | .sfixed32 =>
      match value with
      | .vInt32 v => checkInt field v rule
      | _ => .panicked
    | .int64 | .sint64 | .sfixed64 =>
      match value with
      | .vInt64 v => checkInt field v rule
      | _ => .panicked
    | .uint32 | .fixed32 =>
      match value with
      | .vUInt32 u => checkInt field (int64OfUInt32 u) rule
      | _ => .panicked
    | .uint64 | .fixed64 =>
      match value with
      | .vUInt64 u => checkInt field (int64OfUInt64 u) rule
      | _ => .panicked
    | .float =>
      match value with
      | .vFloat32 v => checkFloat field v rule
      | _ => .panicked
    | .double =>
      match value with
      | .vFloat64 v => checkFloat field v rule
      | _ => .panicked
    | .string =>
      match value with
      | .vString s => checkString re field s rule
      | _ => .panicked
    | .bytes =>
      match value with
      | .vBytes b => checkBytes field b rule
      | _ => .panicked
    | .enum =>
      match value with
      | .vInt32 n => checkEnum field n rule
      | _ => .panicked
    | _ => .ok

/-- `validRepeated` of `valid.go` with the recursion abstracted: nil is
valid, a non-list value is logged and valid, otherwise the aggregate count
check runs first and only when it passes is each element checked with
`validField` in list order, short-circuiting on the first failure. -/
def validRepeatedGo (re : RegexEngine) (rec : DynMessage → VResult)
    (field : FieldDescriptor) (value : Option GoValue)
    (rule : Option FieldValidator) : VResult :=
  match value with
  | none => .ok
  | some value =>
    match value with
    | .vList vList =>
      match checkRepeated field vList rule with
      | .ok => firstNonOk (fun item => validFieldGo re rec field (some item) rule) vList
      | r => r
    | _ => .ok

/-- `validMap` of `valid.go` with the recursion abstracted: nil is valid, a
non-map value is logged and valid, otherwise for each presented entry the
key is checked with the field's rule against the map key descriptor and the
value with a nil rule against the map value descriptor, short-circuiting on
the first failure. -/
def validMapGo (re : RegexEngine) (rec : DynMessage → VResult)
    (keyDesc valueDesc : FieldDescriptor) (value : Option GoValue)
    (rule : Option FieldValidator) : VResult :=
  match value with
  | none => .ok
  | some value =>
    match value with
    | .vMap entries =>
      firstNonOk (fun kv =>
        match validFieldGo re rec keyDesc (some kv.1) rule with
        | .ok => validFieldGo re rec valueDesc (some kv.2) none
        | r => r) entries
    | _ => .ok

/-- One iteration of the field loop in `Valid`: extensions are skipped, a
`TryGetField` error is logged and the field skipped, then the cardinality
dispatch `IsMap` / `IsRepeated` / singular. -/
def stepFieldGo (re : RegexEngine) (rec : DynMessage → VResult) (f : MsgField) :
    VResult :=
  if f.isExtension then .ok
  else
    match f.value with
    | none => .ok
    | some value =>
      if f.isMap then validMapGo re rec f.mapKeyDesc f.mapValueDesc value f.rule
      else if f.isRepeated then validRepeatedGo re rec f.fdesc value f.rule
      else validFieldGo re rec f.fdesc value f.rule

/-- `Valid` of `valid.go` with the recursion abstracted: the known fields
are visited in declaration order and the first failure is returned. -/
def validGo (re : RegexEngine) (rec : DynMessage → VResult) (m : DynMessage) :
    VResult :=
  firstNonOk (stepFieldGo re rec) m

/-- `ValidMsg` of `valid.go` with the recursion abstracted: run `Valid` and
recover from any panic, turning it into a nil error for the whole
message. -/
def ValidMsgGo (re : RegexEngine) (rec : DynMessage → VResult) (m : DynMessage) :
    VResult :=
  absorbPanic (validGo re rec m)

/-- `ValidMsg` of `valid.go`, closed under recursion into nested messages:
`fuel` bounds the message-nesting depth (any fuel larger than the actual
nesting depth gives the Go behaviour). -/
def ValidMsg (re : RegexEngine) : Nat → DynMessage → VResult
  | 0, _ => .ok
  | fuel + 1, m => ValidMsgGo re (ValidMsg re fuel) m

/-- `validField` as invoked while validating a message whose nested
messages are validated with `fuel` remaining depth. -/
def validFieldAt (re : RegexEngine) (fuel : Nat) (field : FieldDescriptor)
    (value : Option GoValue) (rule : Option FieldValidator) : VResult :=
  validFieldGo re (ValidMsg re fuel) field value rule

/-- `validRepeated` as invoked while validating a message whose nested
messages are validated with `fuel` remaining depth. -/
def validRepeatedAt (re : RegexEngine) (fuel : Nat) (field : FieldDescriptor)
    (value : Option GoValue) (rule : Option FieldValidator) : VResult :=
  validRepeatedGo re (ValidMsg re fuel) field value rule

/-- `validMap` as invoked while validating a message whose nested messages
are validated with `fuel` remaining depth. -/
def validMapAt (re : RegexEngine) (fuel : Nat) (keyDesc valueDesc : FieldDescriptor)
    (value : Option GoValue) (rule : Option FieldValidator) : VResult :=
  validMapGo re (ValidMsg re fuel) keyDesc valueDesc value rule

/-- Derived from `validField`'s integer dispatch: the 64-bit signed
comparison value the code feeds to `checkInt` for an integer-kind field,
`none` when the declared type is not an integer kind or the runtime value
does not match it. -/
def asInt64 : FieldType → GoValue → Option Int
  | .int32, .vInt32 v => some v
  | .sint32, .vInt32 v => some v
  | .sfixed32, .vInt32 v => some v
  | .int64, .vInt64 v => some v
  | .sint64, .vInt64 v => some v
  | .sfixed64, .vInt64 v => some v
  | .uint32, .vUInt32 u => some (int64OfUInt32 u)
  | .fixed32, .vUInt32 u => some (int64OfUInt32 u)
  | .uint64, .vUInt64 u => some (int64OfUInt64 u)
  | .fixed64, .vUInt64 u => some (int64OfUInt64 u)
  | _, _ => none

/-- Derived from `validField`'s floating-point dispatch: the 64-bit value
the code feeds to `checkFloat`, `none` otherwise. -/
def asFloat64 : FieldType → GoValue → Option Rat
  | .float, .vFloat32 v => some v
  | .double, .vFloat64 v => some v
  | _, _ => none

/-- Whether the runtime value's Go dynamic type matches what `validField`
type-asserts for the declared wire type, so that no panic is raised
(message-typed and unhandled kinds never panic: their mismatches are
explicitly checked or never asserted). -/
def shapeOk : FieldType → GoValue → Bool
  | .message, _ => true
  | .int32, .vInt32 _ => true
  | .sint32, .vInt32 _ => true
  | .sfixed32, .vInt32 _ => true
  | .int64, .vInt64 _ => true
  | .sint64, .vInt64 _ => true
  | .sfixed64, .vInt64 _ => true
  | .uint32, .vUInt32 _ => true
  | .fixed32, .vUInt32 _ => true
  | .uint64, .vUInt64 _ => true
  | .fixed64, .vUInt64 _ => true
  | .float, .vFloat32 _ => true
  | .double, .vFloat64 _ => true
  | .string, .vString _ => true
  | .bytes, .vBytes _ => true
  | .enum, .vInt32 _ => true
  | .bool, _ => true
  | .group, _ => true
  | _, _ => false

/-! Concrete fixtures used to instantiate the theorems below. -/

/-- A regex engine on which every pattern fails to compile. -/
def reNone : RegexEngine := fun _ => none

/-- An `int32` field `age`. -/
def ageDesc : FieldDescriptor := ⟨"age", .int32, []⟩

/-- Rule `int_gt = 5` for `age`. -/
def ageRule : FieldValidator := { intGt := some 5 }

/-- An `int32` field whose runtime value will have the wrong dynamic type. -/
def badDesc : FieldDescriptor := ⟨"bad", .int32, []⟩

/-- A message in which the earlier-declared field `bad` carries a string
value for a declared `int32` (a failed type assertion, i.e. a panic) while
the later-declared field `age` carries `0`, violating `int_gt = 5`. -/
def msgC1 : DynMessage :=
  [{ fdesc := badDesc, value := some (some (.vString "oops")) },
   { fdesc := ageDesc, rule := some ageRule, value := some (some (.vInt32 0)) }]

/-- A `uint64` field. -/
def u64Desc : FieldDescriptor := ⟨"big", .uint64, []⟩

/-- Rule `int_gt = 0` for the `uint64` field. -/
def u64Rule : FieldValidator := { intGt := some 0 }

/-- An `int32` map-key descriptor. -/
def keyDesc : FieldDescriptor := ⟨"key", .int32, []⟩

/-- An `int32` map-value descriptor. -/
def valDesc : FieldDescriptor := ⟨"val", .int32, []⟩

/-- Rule `int_lt = 5` applied to map keys. -/
def mapRule : FieldValidator := { intLt := some 5 }

/-- Map entry with key `10` (violates `int_lt = 5`). -/
def entryA : GoValue × GoValue := (.vInt32 10, .vInt32 0)

/-- Map entry with key `20` (violates `int_lt = 5`). -/
def entryB : GoValue × GoValue := (.vInt32 20, .vInt32 0)

/-- The synthetic map-entry descriptor carried by a map field (never
consulted by the map branch, which dispatches on `isMap` first). -/
def mapFdesc : FieldDescriptor := ⟨"kv", .message, []⟩

/-- Map entry whose key has a mismatched runtime shape for the declared
`int32` key kind: checking it raises a panic. -/
def entryBad : GoValue × GoValue := (.vString "oops", .vInt32 0)

/-- A message with a single map field whose entries are presented with the
shape-mismatched entry first, then the violating key `10`. -/
def mapMsgBadFirst : DynMessage :=
  [{ fdesc := mapFdesc, isMap := true, mapKeyDesc := keyDesc, mapValueDesc := valDesc,
     rule := some mapRule, value := some (some (.vMap [entryBad, entryA])) }]

/-- The same message with the same two map entries presented in the other
order: the violating key `10` first, then the shape-mismatched entry. -/
def mapMsgViolFirst : DynMessage :=
  [{ fdesc := mapFdesc, isMap := true, mapKeyDesc := keyDesc, mapValueDesc := valDesc,
     rule := some mapRule, value := some (some (.vMap [entryA, entryBad])) }]

/-- A repeated `string` field `tags`. -/
def tagsDesc : FieldDescriptor := ⟨"tags", .string, []⟩

/-- Rule `repeated_count_min = 1`, `repeated_count_max = 3` for `tags`. -/
def tagsRule : FieldValidator := { repeatedCountMin := some 1, repeatedCountMax := some 3 }

/-- A `string` field `name`. -/
def nameDesc : FieldDescriptor := ⟨"name", .string, []⟩

/-- Rule with a non-compiling regex `(` and `length_gt = 1` for `name`. -/
def nameRule : FieldValidator := { regex := some "(", lengthGt := some 1 }

/-- A `float` field `score`. -/
def scoreDesc : FieldDescriptor := ⟨"score", .float, []⟩

/-- Rule `float_gte = 0.30`, `float_epsilon = 0.05` for `score`. -/
def scoreRule : FieldValidator :=
  { floatGte := some ((3 : Rat) / 10), floatEpsilon := some ((1 : Rat) / 20) }

/-- A message-typed field `wrapper`. -/
def wrapperDesc : FieldDescriptor := ⟨"wrapper", .message, []⟩

/-- A nested message whose own field `age` violates `int_gt = 5`. -/
def subMsgE : DynMessage :=
  [{ fdesc := ageDesc, rule := some ageRule, value := some (some (.vInt32 0)) }]

/-- A `bool` field (a wire type `validField` has no case for). -/
def flagDesc : FieldDescriptor := ⟨"flag", .bool, []⟩

/-- An `enum` field `color` with declared numbers `0` and `1`. -/
def colorDesc : FieldDescriptor := ⟨"color", .enum, [0, 1]⟩

/-- Rule `is_in_enum = true` for `color`. -/
def colorRule : FieldValidator := { isInEnum := some true }

/-! Shared helper lemmas. -/

theorem firstNonOk_eq_ok_iff {α : Type} (check : α → VResult) (l : List α) :
    firstNonOk check l = .ok ↔ ∀ x ∈ l, check x = .ok := by
  induction l with
  | nil => simp [firstNonOk]
  | cons x rest ih =>
    cases h : check x with
    | ok => simp [firstNonOk, h, ih]
    | fail e => simp [firstNonOk, h]
    | panicked => simp [firstNonOk, h]

theorem firstNonOk_append_of_ok {α : Type} (check : α → VResult) (l1 l2 : List α)
    (h : ∀ y ∈ l1, check y = .ok) :
    firstNonOk check (l1 ++ l2) = firstNonOk check l2 := by
  induction l1 with
  | nil => rfl
  | cons x rest ih =>
    have hx : check x = .ok := h x (by simp)
    simpa [firstNonOk, hx] using ih fun y hy => h y (by simp [hy])

theorem firstNonOk_first {α : Type} (check : α → VResult) (l1 : List α) (x : α)
    (l2 : List α) (h1 : ∀ y ∈ l1, check y = .ok) (h2 : check x ≠ .ok) :
    firstNonOk check (l1 ++ x :: l2) = check x := by
  rw [firstNonOk_append_of_ok check l1 _ h1]
  cases h : check x with
  | ok => exact absurd h h2
  | fail e => simp [firstNonOk, h]
  | panicked => simp [firstNonOk, h]

theorem ValidMsg_ne_panicked (re : RegexEngine) (fuel : Nat) (m : DynMessage) :
    ValidMsg re fuel m ≠ .panicked := by
  cases fuel with
  | zero => simp [ValidMsg]
  | succ n =>
    simp only [ValidMsg, ValidMsgGo]
    cases validGo re (ValidMsg re n) m <;> simp [absorbPanic]

theorem validFieldAt_eq_checkInt (re : RegexEngine) (fuel : Nat)
    (field : FieldDescriptor) (v : GoValue) (n : Int) (rule : Option FieldValidator)
    (h : asInt64 field.typ v = some n) :
    validFieldAt re fuel field (some v) rule = checkInt field n rule := by
  cases htyp : field.typ <;> cases v <;>
    simp_all [asInt64, validFieldAt, validFieldGo]

theorem checkInt_fail_iff (field : FieldDescriptor) (value : Int)
    (rule : FieldValidator) :
    (∃ e, checkInt field value (some rule) = .fail e)
      ↔ (∃ gt, rule.intGt = some gt ∧ value ≤ gt)
        ∨ (∃ lt, rule.intLt = some lt ∧ lt ≤ value) := by
  rcases hg : rule.intGt with _ | gt <;> rcases hl : rule.intLt with _ | lt <;>
    simp [checkInt, checkOpt, hg, hl] <;> split_ifs <;> simp_all

theorem validFieldAt_eq_checkFloat (re : RegexEngine) (fuel : Nat)
    (field : FieldDescriptor) (v : GoValue) (x : Rat) (rule : Option FieldValidator)
    (h : asFloat64 field.typ v = some x) :
    validFieldAt re fuel field (some v) rule = checkFloat field x rule := by
  cases htyp : field.typ <;> cases v <;>
    simp_all [asFloat64, validFieldAt, validFieldGo]

theorem exists_fail_iff (r : VResult) :
    (∃ e, r = .fail e) ↔ r ≠ .ok ∧ r ≠ .panicked := by
  cases r <;> simp

theorem checkOpt_eq_ok_iff {α : Type} (con : Option α) (pass : α → Bool)
    (err : α → ValidError) (next : VResult) :
    checkOpt con pass err next = .ok
      ↔ (∀ a, con = some a → pass a = true) ∧ next = .ok := by
  cases con with
  | none => simp [checkOpt]
  | some a =>
    simp only [checkOpt]
    split_ifs with h <;> simp [h]

theorem checkOpt_ne_panicked {α : Type} (con : Option α) (pass : α → Bool)
    (err : α → ValidError) (next : VResult) (h : next ≠ .panicked) :
    checkOpt con pass err next ≠ .panicked := by
  cases con with
  | none => simpa [checkOpt] using h
  | some a =>
    simp only [checkOpt]
    split_ifs <;> simp [h]

theorem checkFloat_ne_panicked (field : FieldDescriptor) (value : Rat)
    (rule : Option FieldValidator) :
    checkFloat field value rule ≠ .panicked := by
  cases rule with
  | none => simp [checkFloat]
  | some rule =>
    simp only [checkFloat]
    apply checkOpt_ne_panicked
    apply checkOpt_ne_panicked
    apply checkOpt_ne_panicked
    apply checkOpt_ne_panicked
    simp

theorem checkFloat_eq_ok_iff (field : FieldDescriptor) (value : Rat)
    (rule : FieldValidator) :
    checkFloat field value (some rule) = .ok
      ↔ (∀ gt, rule.floatGt = some gt → value + rule.floatEpsilon.getD 0 > gt)
        ∧ (∀ lt, rule.floatLt = some lt → value - rule.floatEpsilon.getD 0 < lt)
        ∧ (∀ gte, rule.floatGte = some gte → value + rule.floatEpsilon.getD 0 ≥ gte)
        ∧ (∀ lte, rule.floatLte = some lte → value - rule.floatEpsilon.getD 0 ≤ lte) := by
  have he : (match rule.floatEpsilon with | none => (0 : Rat) | some e => e)
      = rule.floatEpsilon.getD 0 := by
    cases rule.floatEpsilon <;> rfl
  simp only [checkFloat, he, checkOpt_eq_ok_iff, decide_eq_true_eq, and_true]

theorem checkFloat_fail_iff (field : FieldDescriptor) (value : Rat)
    (rule : FieldValidator) :
    (∃ e, checkFloat field value (some rule) = .fail e)
      ↔ (∃ gt, rule.floatGt = some gt ∧ value + rule.floatEpsilon.getD 0 ≤ gt)
        ∨ (∃ lt, rule.floatLt = some lt ∧ lt ≤ value - rule.floatEpsilon.getD 0)
        ∨ (∃ gte, rule.floatGte = some gte ∧ value + rule.floatEpsilon.getD 0 < gte)
        ∨ (∃ lte, rule.floatLte = some lte ∧ lte < value - rule.floatEpsilon.getD 0) := by
  have hiff : (∃ e, checkFloat field value (some rule) = .fail e)
      ↔ ¬ (checkFloat field value (some rule) = .ok) := by
    rw [exists_fail_iff]
    simp [checkFloat_ne_panicked field value (some rule)]
  rw [hiff, checkFloat_eq_ok_iff]
  simp only [not_and_or, not_forall, Classical.not_imp, not_lt, not_le, exists_prop]

/-! Claim theorems. -/

/-- Claim C2: for every singular integer field (any signed or unsigned
fixed-width integer kind; `asInt64` is the 64-bit signed comparison value
the code normalizes the runtime value to, including the reinterpretation of
`uint64` values at or above `2 ^ 63` as negatives) with an attached rule,
validation of the field fails iff the rule has `int_gt` set and the
comparison value is ≤ it, or has `int_lt` set and the comparison value
is ≥ it. -/
theorem c2_integer_field_fails_iff (re : RegexEngine) (fuel : Nat)
    (field : FieldDescriptor) (v : GoValue) (rule : FieldValidator) (n : Int)
    (h : asInt64 field.typ v = some n) :
    (∃ e, validFieldAt re fuel field (some v) (some rule) = .fail e)
      ↔ (∃ gt, rule.intGt = some gt ∧ n ≤ gt)
        ∨ (∃ lt, rule.intLt = some lt ∧ lt ≤ n) := by
  rw [validFieldAt_eq_checkInt re fuel field v n (some rule) h]
  exact checkInt_fail_iff field n rule

/-- Claim C2 witness: a `uint64` field holding `2 ^ 63` with rule
`int_gt = 0` fails, because the comparison value is the reinterpreted
`-(2 ^ 63) ≤ 0`. -/
theorem c2_witness :
    asInt64 u64Desc.typ (.vUInt64 (2 ^ 63)) = some (-(2 ^ 63))
    ∧ (∃ e, validFieldAt reNone 0 u64Desc (some (.vUInt64 (2 ^ 63)))
        (some u64Rule) = .fail e) :=
  ⟨by decide,
   (c2_integer_field_fails_iff reNone 0 u64Desc (.vUInt64 (2 ^ 63)) u64Rule
      (-(2 ^ 63)) (by decide)).mpr (Or.inl ⟨0, rfl, by decide⟩)⟩

/-- Claim C6: for every singular floating-point field (either precision;
`asFloat64` is the 64-bit value the code feeds to the checker) with an
attached rule and epsilon `e` (`0` when `float_epsilon` is unset),
validation fails iff (`float_gt` set and value + e ≤ it) or (`float_lt`
set and value - e ≥ it) or (`float_gte` set and value + e < it) or
(`float_lte` set and value - e > it). -/
theorem c6_float_field_fails_iff (re : RegexEngine) (fuel : Nat)
    (field : FieldDescriptor) (v : GoValue) (rule : FieldValidator) (x : Rat)
    (h : asFloat64 field.typ v = some x) :
    (∃ e, validFieldAt re fuel field (some v) (some rule) = .fail e)
      ↔ (∃ gt, rule.floatGt = some gt ∧ x + rule.floatEpsilon.getD 0 ≤ gt)
        ∨ (∃ lt, rule.floatLt = some lt ∧ lt ≤ x - rule.floatEpsilon.getD 0)
        ∨ (∃ gte, rule.floatGte = some gte ∧ x + rule.floatEpsilon.getD 0 < gte)
        ∨ (∃ lte, rule.floatLte = some lte ∧ lte < x - rule.floatEpsilon.getD 0) := by
  rw [validFieldAt_eq_checkFloat re fuel field v x (some rule) h]
  exact checkFloat_fail_iff field x rule

/-- Claim C6 witness (spec Scenario D, failing side): a `float` field
`score` of value `0.20` with `float_gte = 0.30` and `float_epsilon = 0.05`
fails, since `0.20 + 0.05 < 0.30`. -/
theorem c6_witness :
    asFloat64 scoreDesc.typ (.vFloat32 ((1 : Rat) / 5)) = some ((1 : Rat) / 5)
    ∧ (∃ e, validFieldAt reNone 0 scoreDesc (some (.vFloat32 ((1 : Rat) / 5)))
        (some scoreRule) = .fail e) :=
  ⟨by norm_num [asFloat64, scoreDesc],
   (c6_float_field_fails_iff reNone 0 scoreDesc (.vFloat32 ((1 : Rat) / 5))
      scoreRule ((1 : Rat) / 5) (by norm_num [asFloat64, scoreDesc])).mpr
    (Or.inr (Or.inr (Or.inl ⟨(3 : Rat) / 10, rfl, by norm_num [scoreRule]⟩)))⟩

/-- Claim C10: for every field whose declared wire type is not one of the
kinds `validField` dispatches on (message, the integer kinds, float,
double, string, bytes, enum) — that is, a `bool` or `group` field — the
per-field check returns no violation, regardless of the runtime value and
of any attached rule. -/
theorem c10_unhandled_kinds_are_valid (re : RegexEngine) (fuel : Nat)
    (field : FieldDescriptor) (v : GoValue) (rule : Option FieldValidator)
    (h : field.typ ∉ ([.message, .int32, .sint32, .sfixed32, .int64, .sint64,
        .sfixed64, .uint32, .fixed32, .uint64, .fixed64, .float, .double,
        .string, .bytes, .enum] : List FieldType)) :
    validFieldAt re fuel field (some v) rule = .ok := by
  simp only [List.mem_cons, List.mem_singleton] at h
  push_neg at h
  cases htyp : field.typ <;> simp [htyp] at h <;>
    simp [validFieldAt, validFieldGo, htyp]

/-- Claim C10 witness: a `bool` field with an attached rule and a runtime
value of an unrelated dynamic type is still reported valid. -/
theorem c10_witness :
    validFieldAt reNone 0 flagDesc (some (.vString "oops")) (some ageRule) = .ok :=
  c10_unhandled_kinds_are_valid reNone 0 flagDesc (.vString "oops") (some ageRule)
    (by decide)

/-- Claim C7: a message-typed field is validated by recursing `ValidMsg`
into the nested message, the field's own rule is never applied to the
wrapper (the result is independent of `rule`), and the nested result —
including the violating nested field's identity — propagates unchanged,
also through a top-level message containing the wrapper field. -/
theorem c7_message_field_recurses (re : RegexEngine) (fuel : Nat)
    (field : FieldDescriptor) (sub : DynMessage) (rule : Option FieldValidator)
    (h : field.typ = .message) :
    validFieldAt re fuel field (some (.vMsg sub)) rule = ValidMsg re fuel sub
    ∧ ValidMsg re (fuel + 1)
        [{ fdesc := field, rule := rule, value := some (some (.vMsg sub)) }]
      = ValidMsg re fuel sub := by
  constructor
  · simp [validFieldAt, validFieldGo, h, checkMessageGo]
  · simp only [ValidMsg, ValidMsgGo, validGo, firstNonOk, stepFieldGo]
    cases hres : ValidMsg re fuel sub with
    | ok => simp [validFieldGo, h, checkMessageGo, hres, firstNonOk, absorbPanic]
    | fail e => simp [validFieldGo, h, checkMessageGo, hres, absorbPanic]
    | panicked => exact absurd hres (ValidMsg_ne_panicked re fuel sub)

/-- Claim C7 witness (spec Scenario E): a wrapper message field whose nested
message's own field `age` violates `int_gt = 5` yields exactly the nested
field's violation, with the field identity of `age`, not of the wrapper;
the wrapper's own rule is irrelevant. -/
theorem c7_witness :
    validFieldAt reNone 1 wrapperDesc (some (.vMsg subMsgE)) (some ageRule)
      = .fail (ValidFail ageDesc "IntGt" (.int 5) (.int 0)) := by
  rw [(c7_message_field_recurses reNone 1 wrapperDesc subMsgE (some ageRule) rfl).1]
  decide

/-- Claim C1 counterexample: in `msgC1` the later-declared field `age`
violates its rule (checking it alone reports the violation), but because
the earlier-declared field `bad` carries a value whose runtime shape
mismatches its declared `int32` kind (a panic in `validField`), `ValidMsg`
on the whole message returns no violation at all — the later field's
violation is NOT returned, refuting local absorption. -/
theorem c1_counterexample :
    validFieldAt reNone 0 ageDesc (some (.vInt32 0)) (some ageRule)
      = .fail (ValidFail ageDesc "IntGt" (.int 5) (.int 0))
    ∧ ValidMsg reNone 1 msgC1 = .ok := by
  exact ⟨by decide, by decide⟩

/-- Claim C1 as amended: an unexpected shape-mismatch failure is absorbed
not at the single-field scope but at the enclosing `ValidMsg` call: the
call never crashes (never returns a panic), and a panic anywhere in the
traversal makes the whole enclosing message validate as "valid",
abandoning the remaining sibling fields. -/
theorem c1_panic_absorbed_at_message_scope (re : RegexEngine) (fuel : Nat)
    (m : DynMessage) :
    ValidMsg re fuel m ≠ .panicked
    ∧ (validGo re (ValidMsg re fuel) m = .panicked → ValidMsg re (fuel + 1) m = .ok) := by
  refine ⟨ValidMsg_ne_panicked re fuel m, fun h => ?_⟩
  simp [ValidMsg, ValidMsgGo, h, absorbPanic]

/-- Claim C1 amended witness: on `msgC1` the traversal panics (shape
mismatch on field `bad`), and `ValidMsg` turns this into "valid" for the
whole message. -/
theorem c1_witness :
    validGo reNone (ValidMsg reNone 0) msgC1 = .panicked
    ∧ ValidMsg reNone 1 msgC1 = .ok := by
  refine ⟨by decide, (c1_panic_absorbed_at_message_scope reNone 0 msgC1).2 (by decide)⟩

/-- Claim C3 counterexample: the two presentation orders of the same two
map entries (a permutation, i.e. the same Go map iterated twice) make the
validator report different violations when two keys violate, so the full
result is not stable across runs; worse, with a shape-mismatched key
alongside a violating key, even the valid/invalid outcome of the whole
`ValidMsg` call differs between the two orders — the order that reaches
the mismatched key first panics, recovers, and reports the message valid,
while the other order reports the `IntLt` violation. -/
theorem c3_counterexample :
    ([entryA, entryB] : List (GoValue × GoValue)).Perm [entryB, entryA]
    ∧ validMapAt reNone 0 keyDesc valDesc (some (.vMap [entryA, entryB]))
        (some mapRule)
      ≠ validMapAt reNone 0 keyDesc valDesc (some (.vMap [entryB, entryA]))
        (some mapRule)
    ∧ ([entryBad, entryA] : List (GoValue × GoValue)).Perm [entryA, entryBad]
    ∧ ValidMsg reNone 1 mapMsgBadFirst = .ok
    ∧ ValidMsg reNone 1 mapMsgViolFirst
        = .fail (ValidFail keyDesc "IntLt" (.int 5) (.int 10)) :=
  ⟨List.Perm.swap entryB entryA [], by decide,
   List.Perm.swap entryA entryBad [], by decide, by decide⟩

theorem firstNonOk_ne_panicked {α : Type} (check : α → VResult) (l : List α)
    (h : ∀ x ∈ l, check x ≠ .panicked) : firstNonOk check l ≠ .panicked := by
  induction l with
  | nil => simp [firstNonOk]
  | cons x rest ih =>
    cases hc : check x with
    | ok => simpa [firstNonOk, hc] using ih fun y hy => h y (by simp [hy])
    | fail e => simp [firstNonOk, hc]
    | panicked => exact absurd hc (h x (by simp))

theorem validMapAt_ne_panicked (re : RegexEngine) (fuel : Nat)
    (keyD valueD : FieldDescriptor) (es : List (GoValue × GoValue))
    (rule : Option FieldValidator)
    (hnp : ∀ kv ∈ es,
      validFieldAt re fuel keyD (some kv.1) rule ≠ .panicked
      ∧ validFieldAt re fuel valueD (some kv.2) none ≠ .panicked) :
    validMapAt re fuel keyD valueD (some (.vMap es)) rule ≠ .panicked := by
  simp only [validMapAt, validMapGo]
  apply firstNonOk_ne_panicked
  intro kv hkv
  rcases hnp kv hkv with ⟨hk, hv⟩
  simp only [validFieldAt] at hk hv
  cases hc : validFieldGo re (ValidMsg re fuel) keyD (some kv.1) rule with
  | ok => simpa [hc] using hv
  | fail e => simp [hc]
  | panicked => exact absurd hc hk

theorem ValidMsg_singleton_map (re : RegexEngine) (fuel : Nat)
    (fd keyD valueD : FieldDescriptor) (rule : Option FieldValidator) (v : GoValue) :
    ValidMsg re (fuel + 1)
      [{ fdesc := fd, isMap := true, mapKeyDesc := keyD, mapValueDesc := valueD,
         rule := rule, value := some (some v) }]
      = absorbPanic (validMapAt re fuel keyD valueD (some v) rule) := by
  simp only [ValidMsg, ValidMsgGo, validGo, firstNonOk, stepFieldGo, validMapAt]
  cases hr : validMapGo re (ValidMsg re fuel) keyD valueD (some v) rule <;>
    simp [hr, absorbPanic, firstNonOk]

theorem absorbPanic_eq_ok_iff (r : VResult) :
    absorbPanic r = .ok ↔ (r = .ok ∨ r = .panicked) := by
  cases r <;> simp [absorbPanic]

/-- Claim C3 as amended: validation is deterministic only relative to the
runtime's map-entry iteration order. For a map field all of whose entry
(key and value) checks are panic-free, the valid/invalid outcome — of the
map-field check and of the whole `ValidMsg` call on a message carrying
that field — is invariant under the iteration order (any permutation of
the entries), though the identity of the reported violation may differ
between runs when several entries violate; with a shape-mismatched entry
even the valid/invalid outcome can differ between orders
(counterexample). -/
theorem c3_outcome_deterministic_up_to_order (re : RegexEngine) (fuel : Nat)
    (keyD valueD : FieldDescriptor) (rule : Option FieldValidator)
    (es1 es2 : List (GoValue × GoValue)) (h : es1.Perm es2)
    (hnp : ∀ kv ∈ es1,
      validFieldAt re fuel keyD (some kv.1) rule ≠ .panicked
      ∧ validFieldAt re fuel valueD (some kv.2) none ≠ .panicked) :
    (validMapAt re fuel keyD valueD (some (.vMap es1)) rule = .ok
      ↔ validMapAt re fuel keyD valueD (some (.vMap es2)) rule = .ok)
    ∧ ∀ fd : FieldDescriptor,
      (ValidMsg re (fuel + 1)
          [{ fdesc := fd, isMap := true, mapKeyDesc := keyD, mapValueDesc := valueD,
             rule := rule, value := some (some (.vMap es1)) }] = .ok
        ↔ ValidMsg re (fuel + 1)
          [{ fdesc := fd, isMap := true, mapKeyDesc := keyD, mapValueDesc := valueD,
             rule := rule, value := some (some (.vMap es2)) }] = .ok) := by
  have hA : validMapAt re fuel keyD valueD (some (.vMap es1)) rule = .ok
      ↔ validMapAt re fuel keyD valueD (some (.vMap es2)) rule = .ok := by
    simp only [validMapAt, validMapGo]
    rw [firstNonOk_eq_ok_iff, firstNonOk_eq_ok_iff]
    exact ⟨fun H x hx => H x (h.mem_iff.mpr hx), fun H x hx => H x (h.mem_iff.mp hx)⟩
  refine ⟨hA, fun fd => ?_⟩
  have h1 := validMapAt_ne_panicked re fuel keyD valueD es1 rule hnp
  have h2 := validMapAt_ne_panicked re fuel keyD valueD es2 rule
    fun kv hkv => hnp kv (h.mem_iff.mpr hkv)
  rw [ValidMsg_singleton_map, ValidMsg_singleton_map,
    absorbPanic_eq_ok_iff, absorbPanic_eq_ok_iff]
  simp only [h1, h2, or_false]
  exact hA

/-- Claim C3 amended witness: the two orders of the concrete well-shaped
(panic-free) violating map agree on the valid/invalid outcome, both at the
map-field check and for the whole `ValidMsg` call. -/
theorem c3_witness :
    (validMapAt reNone 0 keyDesc valDesc (some (.vMap [entryA, entryB]))
        (some mapRule) = .ok
      ↔ validMapAt reNone 0 keyDesc valDesc (some (.vMap [entryB, entryA]))
        (some mapRule) = .ok)
    ∧ (ValidMsg reNone 1
          [{ fdesc := mapFdesc, isMap := true, mapKeyDesc := keyDesc,
             mapValueDesc := valDesc, rule := some mapRule,
             value := some (some (.vMap [entryA, entryB])) }] = .ok
        ↔ ValidMsg reNone 1
          [{ fdesc := mapFdesc, isMap := true, mapKeyDesc := keyDesc,
             mapValueDesc := valDesc, rule := some mapRule,
             value := some (some (.vMap [entryB, entryA])) }] = .ok) := by
  have h := c3_outcome_deterministic_up_to_order reNone 0 keyDesc valDesc
    (some mapRule) [entryA, entryB] [entryB, entryA]
    (List.Perm.swap entryB entryA []) (by decide)
  exact ⟨h.1, h.2 mapFdesc⟩

theorem checkRepeated_eq_ok_iff (field : FieldDescriptor) (values : List GoValue)
    (rule : FieldValidator) :
    checkRepeated field values (some rule) = .ok
      ↔ (∀ mn, rule.repeatedCountMin = some mn → mn ≤ (values.length : Int))
        ∧ (∀ mx, rule.repeatedCountMax = some mx → (values.length : Int) ≤ mx) := by
  simp only [checkRepeated, checkOpt_eq_ok_iff, decide_eq_true_eq, and_true, ge_iff_le]

/-- Claim C4: for a repeated field with an attached rule, the aggregate
element count is checked first against the inclusive bounds
`repeated_count_min` / `repeated_count_max`: a count below the minimum (or,
with the minimum satisfied, above the maximum) returns immediately with the
aggregate-level error naming `RepeatedCountMin` (resp. `RepeatedCountMax`),
regardless of the elements; when both bounds hold every element is checked
individually against the same rule in list order, and the first failing
element's result is returned. -/
theorem c4_repeated_aggregate_then_elements (re : RegexEngine) (fuel : Nat)
    (field : FieldDescriptor) (xs : List GoValue) (rule : FieldValidator) :
    (∀ mn, rule.repeatedCountMin = some mn → (xs.length : Int) < mn →
      validRepeatedAt re fuel field (some (.vList xs)) (some rule)
        = .fail (ValidFail field "RepeatedCountMin" (.int mn) (.int (xs.length : Int))))
    ∧ (∀ mx, rule.repeatedCountMax = some mx →
        (∀ mn, rule.repeatedCountMin = some mn → mn ≤ (xs.length : Int)) →
        mx < (xs.length : Int) →
        validRepeatedAt re fuel field (some (.vList xs)) (some rule)
          = .fail (ValidFail field "RepeatedCountMax" (.int mx) (.int (xs.length : Int))))
    ∧ ((∀ mn, rule.repeatedCountMin = some mn → mn ≤ (xs.length : Int)) →
       (∀ mx, rule.repeatedCountMax = some mx → (xs.length : Int) ≤ mx) →
        validRepeatedAt re fuel field (some (.vList xs)) (some rule)
          = firstNonOk (fun item => validFieldAt re fuel field (some item) (some rule)) xs)
    ∧ (∀ l1 x l2, xs = l1 ++ x :: l2 →
        (∀ mn, rule.repeatedCountMin = some mn → mn ≤ (xs.length : Int)) →
        (∀ mx, rule.repeatedCountMax = some mx → (xs.length : Int) ≤ mx) →
        (∀ y ∈ l1, validFieldAt re fuel field (some y) (some rule) = .ok) →
        validFieldAt re fuel field (some x) (some rule) ≠ .ok →
        validRepeatedAt re fuel field (some (.vList xs)) (some rule)
          = validFieldAt re fuel field (some x) (some rule)) := by
  refine ⟨?_, ?_, ?_, ?_⟩
  · intro mn hmn hlt
    have hcr : checkRepeated field xs (some rule)
        = .fail (ValidFail field "RepeatedCountMin" (.int mn) (.int (xs.length : Int))) := by
      simp only [checkRepeated, checkOpt, hmn]
      rw [if_neg (by simp only [decide_eq_true_eq, ge_iff_le]; omega)]
    simp only [validRepeatedAt, validRepeatedGo, hcr]
  · intro mx hmx hminok hlt
    have hcr : checkRepeated field xs (some rule)
        = .fail (ValidFail field "RepeatedCountMax" (.int mx) (.int (xs.length : Int))) := by
      rcases hmn : rule.repeatedCountMin with _ | mn
      · simp only [checkRepeated, checkOpt, hmn, hmx]
        rw [if_neg (by simp only [decide_eq_true_eq]; omega)]
      · have hge := hminok mn hmn
        simp only [checkRepeated, checkOpt, hmn, hmx]
        rw [if_pos (by simp only [decide_eq_true_eq, ge_iff_le]; omega)]
        rw [if_neg (by simp only [decide_eq_true_eq]; omega)]
    simp only [validRepeatedAt, validRepeatedGo, hcr]
  · intro hmin hmax
    have hcr : checkRepeated field xs (some rule) = .ok :=
      (checkRepeated_eq_ok_iff field xs rule).mpr ⟨hmin, hmax⟩
    simp only [validRepeatedAt, validRepeatedGo, hcr, validFieldAt]
  · intro l1 x l2 hxs hmin hmax hok hx
    subst hxs
    have hcr : checkRepeated field (l1 ++ x :: l2) (some rule) = .ok :=
      (checkRepeated_eq_ok_iff field _ rule).mpr ⟨hmin, hmax⟩
    simp only [validRepeatedAt, validRepeatedGo, hcr]
    simp only [validFieldAt] at hok hx ⊢
    exact firstNonOk_first _ l1 x l2 hok hx

/-- Claim C4 witness (spec Scenario C, empty side): the repeated field
`tags` with bounds `[1, 3]` and an empty list fails at the aggregate level
with the `RepeatedCountMin` error. -/
theorem c4_witness :
    validRepeatedAt reNone 0 tagsDesc (some (.vList [])) (some tagsRule)
      = .fail (ValidFail tagsDesc "RepeatedCountMin" (.int 1) (.int 0)) :=
  (c4_repeated_aggregate_then_elements reNone 0 tagsDesc [] tagsRule).1 1 rfl
    (by decide)

/-- Claim C5: a map field applies the field's rule to each presented
entry's key, with the map key descriptor, and applies no rule (`none`) to
the entry's value, returning the first key violation or value-side
violation; a value of any non-message kind whose shape matches its
declared kind is therefore always accepted, while message-typed keys or
values still recurse into `ValidMsg`. -/
theorem c5_map_rule_applies_to_keys_not_values (re : RegexEngine) (fuel : Nat)
    (keyD valueD : FieldDescriptor) (entries : List (GoValue × GoValue))
    (rule : Option FieldValidator) :
    validMapAt re fuel keyD valueD (some (.vMap entries)) rule
      = firstNonOk (fun kv =>
          match validFieldAt re fuel keyD (some kv.1) rule with
          | .ok => validFieldAt re fuel valueD (some kv.2) none
          | r => r) entries
    ∧ (∀ v : GoValue, valueD.typ ≠ .message → shapeOk valueD.typ v = true →
        validFieldAt re fuel valueD (some v) none = .ok)
    ∧ (∀ d : FieldDescriptor, ∀ sub : DynMessage, ∀ r : Option FieldValidator,
        d.typ = .message →
        validFieldAt re fuel d (some (.vMsg sub)) r = ValidMsg re fuel sub) := by
  refine ⟨rfl, ?_, ?_⟩
  · intro v hne hs
    cases htyp : valueD.typ <;> cases v <;>
      simp_all [shapeOk, validFieldAt, validFieldGo, checkInt, checkFloat,
        checkString, checkBytes, checkEnum]
  · intro d sub r hd
    simp [validFieldAt, validFieldGo, hd, checkMessageGo]

/-- Claim C5 witness: an `int32` map value is accepted with no rule applied
to it. -/
theorem c5_witness :
    validFieldAt reNone 0 valDesc (some (.vInt32 7)) none = .ok :=
  (c5_map_rule_applies_to_keys_not_values reNone 0 keyDesc valDesc [] none).2.1
    (.vInt32 7) (by decide) (by decide)

theorem checkString_ne_panicked (re : RegexEngine) (field : FieldDescriptor)
    (s : String) (rule : Option FieldValidator) :
    checkString re field s rule ≠ .panicked := by
  cases rule with
  | none => simp [checkString]
  | some rule =>
    simp only [checkString]
    split_ifs
    · simp
    · apply checkOpt_ne_panicked
      apply checkOpt_ne_panicked
      apply checkOpt_ne_panicked
      rcases hr : rule.regex with _ | pat
      · simp [hr]
      · simp only [hr]
        rcases hm : re pat with _ | matcher
        · simp [hm]
        · simp only [hm]
          split_ifs <;> simp

/-- Claim C8: for a string field whose rule carries a regex pattern that
fails to compile, the regex constraint is treated as not present for that
check — the field check behaves exactly as with the regex constraint
removed, so the other constraints and (through the unchanged `VResult`)
the other fields proceed normally — and the compile failure never panics
the validation. -/
theorem c8_noncompiling_regex_is_skipped (re : RegexEngine) (fuel : Nat)
    (field : FieldDescriptor) (s : String) (rule : FieldValidator) (pat : String)
    (htyp : field.typ = .string) (hpat : rule.regex = some pat)
    (hfail : re pat = none) :
    validFieldAt re fuel field (some (.vString s)) (some rule)
      = validFieldAt re fuel field (some (.vString s))
          (some { rule with regex := none })
    ∧ validFieldAt re fuel field (some (.vString s)) (some rule) ≠ .panicked := by
  constructor
  · simp only [validFieldAt, validFieldGo, htyp]
    simp only [checkString, hpat, hfail]
  · simp only [validFieldAt, validFieldGo, htyp]
    exact checkString_ne_panicked re field s (some rule)

/-- Claim C8 witness: with an engine on which `(` fails to compile, the
field `name` of value `"Ada"` under a rule carrying that pattern validates
exactly as under the same rule without the pattern. -/
theorem c8_witness :
    validFieldAt reNone 0 nameDesc (some (.vString "Ada")) (some nameRule)
      = validFieldAt reNone 0 nameDesc (some (.vString "Ada"))
          (some { nameRule with regex := none }) :=
  (c8_noncompiling_regex_is_skipped reNone 0 nameDesc "Ada" nameRule "(" rfl rfl
    rfl).1

/-- Claim C9 counterexample: the enum field `color` (declared numbers 0
and 1) holding the number 5 fails `IsInEnum`, but the error's observed
value is the literal boolean `false`, not the actual enum number 5. -/
theorem c9_counterexample :
    validFieldAt reNone 0 colorDesc (some (.vInt32 5)) (some colorRule)
      = .fail (ValidFail colorDesc "IsInEnum" (.bool true) (.bool false))
    ∧ (ValidFail colorDesc "IsInEnum" (.bool true) (.bool false)).fieldValue
        ≠ EVal.int 5 :=
  ⟨by decide, by decide⟩

theorem checkOpt_fail_elim {α : Type} {con : Option α} {pass : α → Bool}
    {err : α → ValidError} {next : VResult} {e : ValidError}
    (h : checkOpt con pass err next = .fail e) :
    (∃ a, con = some a ∧ e = err a) ∨ next = .fail e := by
  cases con with
  | none => exact Or.inr h
  | some a =>
    simp only [checkOpt] at h
    split at h
    · exact Or.inr h
    · injection h with h2
      exact Or.inl ⟨a, rfl, h2.symm⟩

/-- Claim C9 as amended: every validation error carries the offending
field's name and declared kind, the violated constraint's name, the
configured threshold and an observed value — for the integer checker the
observed value is the actual comparison value, but for an enum field
failing `is_in_enum` the observed value recorded is the literal boolean
`false`, not the actual enum number. -/
theorem c9_error_identifies_field_and_constraint (re : RegexEngine) (fuel : Nat)
    (field : FieldDescriptor) (n : Int) (rule : FieldValidator) (e : ValidError)
    (htyp : field.typ = .enum)
    (h : validFieldAt re fuel field (some (.vInt32 n)) (some rule) = .fail e) :
    (e.fieldName = field.name ∧ e.fieldType = field.typ ∧ e.validKey = "IsInEnum"
      ∧ e.validValue = .bool true ∧ e.fieldValue = .bool false)
    ∧ (∀ (f2 : FieldDescriptor) (v2 : Int) (r2 : FieldValidator) (e2 : ValidError),
        checkInt f2 v2 (some r2) = .fail e2 →
        e2.fieldName = f2.name ∧ e2.fieldType = f2.typ ∧ e2.fieldValue = .int v2) := by
  constructor
  · simp only [validFieldAt, validFieldGo, htyp] at h
    rcases hin : rule.isInEnum with _ | b
    · simp [checkEnum, hin] at h
    · simp only [checkEnum, hin] at h
      cases b
      · simp at h
      · simp only [Bool.not_true, Bool.false_eq_true, if_false] at h
        split at h
        · exact absurd h (by simp)
        · injection h with h2
          subst h2
          exact ⟨rfl, rfl, rfl, rfl, rfl⟩
  · intro f2 v2 r2 e2 h2
    simp only [checkInt] at h2
    rcases checkOpt_fail_elim h2 with ⟨gt, hgt, he⟩ | h3
    · subst he
      exact ⟨rfl, rfl, rfl⟩
    · rcases checkOpt_fail_elim h3 with ⟨lt, hlt, he⟩ | h4
      · subst he
        exact ⟨rfl, rfl, rfl⟩
      · exact absurd h4 (by simp)

/-- Claim C9 amended witness: instantiated on the concrete failing enum
field `color` with value 5. -/
theorem c9_witness :
    (ValidFail colorDesc "IsInEnum" (.bool true) (.bool false)).fieldName
        = colorDesc.name
    ∧ (ValidFail colorDesc "IsInEnum" (.bool true) (.bool false)).fieldValue
        = EVal.bool false :=
  ⟨((c9_error_identifies_field_and_constraint reNone 0 colorDesc 5 colorRule
      (ValidFail colorDesc "IsInEnum" (.bool true) (.bool false)) rfl
      (by decide)).1).1,
   ((((c9_error_identifies_field_and_constraint reNone 0 colorDesc 5 colorRule
      (ValidFail colorDesc "IsInEnum" (.bool true) (.bool false)) rfl
      (by decide)).1).2).2).2.2⟩

end GoProtoValidators
